import Mathlib

/-!
Verification development for the gamehappy 2D game-object framework
(`game_objects.py`, `materials/graphics.py`).

The Python source is shallowly embedded: each stateful class becomes a Lean
structure plus pure state-transition functions; Python integers become `Int`
(Python 2 floor division is `Int.fdiv`); operations that can raise become
`Except PyErr`.  The pygame surface backend is, per the specification, an
opaque primitive: a surface is modelled as dimensions, a per-surface alpha
(`Option Int`, since `get_alpha` may return no value) and a pixel map, and
`blit` of a fully opaque source is modelled as a rectangular sub-region copy.
-/

namespace GameHappy

/-- Python runtime errors that the embedded code can raise. -/
inductive PyErr where
  | typeError
  | zeroDivisionError
  | notImplementedError
  deriving DecidableEq, Repr

/-- Python 2 integer division `a / b`: floor division, raising
`ZeroDivisionError` when the divisor is zero. -/
def pyIntDiv (a b : Int) : Except PyErr Int :=
  if b = 0 then .error .zeroDivisionError else .ok (Int.fdiv a b)

/-- Python list indexing `l[i]` restricted to the in-range cases
(including negative indices counting from the end, as in Python); the
out-of-range `IndexError` cases are unreachable in this development because
the frame index stays in `[0, N)` (see the range-invariant theorem). -/
def pyGet (l : List Int) (i : Int) : Int :=
  if i < 0 then l.getD (l.length + i).toNat 0 else l.getD i.toNat 0

/-! ## Animation frame state machine (`materials/graphics.py`, class `Animation`)

Only the frame-timing state is embedded here; the pixel side of `Animation`
(its sprite sheet) is independent of the state machine and is modelled
separately below for the strip-reorder transform. -/

/-- The mutable frame-timing state of `Animation`: `_frame_index`,
`_frame_counter`, `_frame_durations`, `_is_playing_backwards`, `_is_paused`
and `_held_frame` (`None` encoded as `none`). -/
structure AnimState where
  frameIndex : Int
  frameCounter : Int
  frameDurations : List Int
  isPlayingBackwards : Bool
  isPaused : Bool
  heldFrame : Option Int
  deriving DecidableEq, Repr

namespace Animation

/-- `Animation.num_of_frames`: `len(self._frame_durations)`. -/
def numOfFrames (s : AnimState) : Int :=
  (s.frameDurations.length : Int)

/-- The frame-timing state set up by `Animation.__init__`: frame index 0,
counter 0, forward playback, unpaused, no held frame. -/
def mkAnimState (durations : List Int) : AnimState :=
  { frameIndex := 0
    frameCounter := 0
    frameDurations := durations
    isPlayingBackwards := false
    isPaused := false
    heldFrame := none }

/-- `Animation.__init__(source, x, y, *frame_durations)`: initializes the
frame state, then computes `self._rect.width = self._calculate_frame_width()`
which divides the sheet width by `num_of_frames()` — raising
`ZeroDivisionError` when the duration sequence is empty.  Returns the computed
frame width together with the initial state. -/
def animationInit (imageWidth : Int) (durations : List Int) :
    Except PyErr (Int × AnimState) := do
  let s := mkAnimState durations
  let fw ← pyIntDiv imageWidth (s.frameDurations.length : Int)
  pure (fw, s)

/-- `Animation.pause`: reset the counter and set the paused flag. -/
def pause (s : AnimState) : AnimState :=
  { s with frameCounter := 0, isPaused := true }

/-- `Animation.unpause`: clear the paused flag. -/
def unpause (s : AnimState) : AnimState :=
  { s with isPaused := false }

/-- `Animation.hold_frame(frame_index=-1)`: arm the held-frame target. -/
def holdFrame (s : AnimState) (frameIndexArg : Int) : AnimState :=
  { s with heldFrame := some frameIndexArg }

/-- `Animation.enable_backwards_playback(enabled=True)`. -/
def enableBackwardsPlayback (s : AnimState) (enabled : Bool) : AnimState :=
  { s with isPlayingBackwards := enabled }

/-- `Animation.toggle_backwards_playback`. -/
def toggleBackwardsPlayback (s : AnimState) : AnimState :=
  { s with isPlayingBackwards := !s.isPlayingBackwards }

/-- `Animation._frame_has_completed_duration`:
`self._frame_counter >= self._frame_durations[self._frame_index]`. -/
def frameHasCompletedDuration (s : AnimState) : Bool :=
  s.frameCounter ≥ pyGet s.frameDurations s.frameIndex

/-- `Animation._select_next_frame`: increment the index, looping back to 0
past the last frame. -/
def selectNextFrame (s : AnimState) : AnimState :=
  let i := s.frameIndex + 1
  { s with frameIndex := if i ≥ numOfFrames s then 0 else i }

/-- `Animation._select_previous_frame`: decrement the index, looping back to
the last frame below 0. -/
def selectPreviousFrame (s : AnimState) : AnimState :=
  let i := s.frameIndex - 1
  { s with frameIndex := if i < 0 then numOfFrames s - 1 else i }

/-- `Animation._check_held_frame`: pause iff the current index equals the
armed target, or equals the last frame while the armed target is not `None`
and is negative; the comparison `self._frame_index == self._held_frame` is
`False` in Python when `_held_frame` is `None`. -/
def checkHeldFrame (s : AnimState) : AnimState :=
  match s.heldFrame with
  | none => s
  | some h =>
      if s.frameIndex = h ∨ (s.frameIndex = numOfFrames s - 1 ∧ h < 0) then
        pause { s with heldFrame := none }
      else s

/-- `Animation.update`: when not paused, increment the counter; on completing
the current frame's duration, reset the counter, step the index in the play
direction, and evaluate the held-frame check. -/
def update (s : AnimState) : AnimState :=
  if s.isPaused then s
  else
    let s1 := { s with frameCounter := s.frameCounter + 1 }
    if frameHasCompletedDuration s1 then
      let s2 := { s1 with frameCounter := 0 }
      let s3 := if s2.isPlayingBackwards then selectPreviousFrame s2
                else selectNextFrame s2
      checkHeldFrame s3
    else s1

/-- A paused animation is left unchanged by `update`. -/
theorem update_of_paused (s : AnimState) (h : s.isPaused = true) :
    update s = s := by
  simp [update, h]

/-- A paused animation is left unchanged by any number of `update` calls. -/
theorem iterate_update_of_paused (s : AnimState) (h : s.isPaused = true) :
    ∀ k : Nat, update^[k] s = s := by
  intro k
  induction k with
  | zero => rfl
  | succ n ih => rw [Function.iterate_succ_apply, update_of_paused s h, ih]

end Animation

open Animation

/-! ## Claim C1: held-frame pausing with no armed target -/

/-- C1 counterexample: with durations `[2,2,2]`, forward play and no
held-frame target armed (`_held_frame = None`, the constructor default), the
6th `update()` does NOT move the index to 2 and does NOT pause: the index
wraps to 0 and the animation stays unpaused, because `_check_held_frame`
requires `_held_frame` to be a non-`None` value before it can pause on the
last frame. -/
theorem c1_counterexample :
    (Animation.update^[6] (mkAnimState [2, 2, 2])).frameIndex = 0 ∧
    (Animation.update^[6] (mkAnimState [2, 2, 2])).isPaused = false := by
  decide

/-- C1 (amended): pausing on the last frame requires an armed negative
held-frame target (e.g. `hold_frame(-1)`); with no target armed the animation
never pauses.  With durations `[2,2,2]`, forward play and `hold_frame(-1)`
armed, the 4th `update()` resets the counter, moves the index to 2, clears
the target and pauses; the animation then stays at index 2 (whole state
unchanged) under all further `update()` calls until `unpause()` clears the
paused flag. -/
theorem c1_theorem :
    Animation.update^[4] (holdFrame (mkAnimState [2, 2, 2]) (-1)) =
      { frameIndex := 2, frameCounter := 0, frameDurations := [2, 2, 2],
        isPlayingBackwards := false, isPaused := true, heldFrame := none } ∧
    (∀ k : Nat, Animation.update^[k]
      { frameIndex := 2, frameCounter := 0, frameDurations := [2, 2, 2],
        isPlayingBackwards := false, isPaused := true,
        heldFrame := (none : Option Int) } =
      { frameIndex := 2, frameCounter := 0, frameDurations := [2, 2, 2],
        isPlayingBackwards := false, isPaused := true, heldFrame := none }) ∧
    (unpause
      { frameIndex := 2, frameCounter := 0, frameDurations := [2, 2, 2],
        isPlayingBackwards := false, isPaused := true,
        heldFrame := (none : Option Int) }).isPaused = false := by
  exact ⟨by decide, fun k => iterate_update_of_paused _ rfl k, by decide⟩

/-! ## Claim C9: frame-index range invariant -/

/-- `_check_held_frame` never changes the frame index (it only pauses). -/
theorem checkHeldFrame_frameIndex (s : AnimState) :
    (checkHeldFrame s).frameIndex = s.frameIndex := by
  unfold checkHeldFrame
  split
  · rfl
  · split <;> rfl

/-- `_check_held_frame` never changes the duration list. -/
theorem checkHeldFrame_frameDurations (s : AnimState) :
    (checkHeldFrame s).frameDurations = s.frameDurations := by
  unfold checkHeldFrame
  split
  · rfl
  · split <;> rfl

/-- `update` never changes the duration list. -/
theorem update_frameDurations (s : AnimState) :
    (update s).frameDurations = s.frameDurations := by
  simp only [update]
  split
  · rfl
  · split
    · rw [checkHeldFrame_frameDurations]
      split <;> rfl
    · rfl

/-- `update` keeps the frame index in `[0, N)` (given `N ≥ 1`): the index
either stays put or is stepped by `_select_next_frame` /
`_select_previous_frame`, both of which wrap at the ends. -/
theorem update_frameIndex_range (s : AnimState)
    (hN : 1 ≤ s.frameDurations.length) (h0 : 0 ≤ s.frameIndex)
    (h1 : s.frameIndex < (s.frameDurations.length : Int)) :
    0 ≤ (update s).frameIndex ∧
      (update s).frameIndex < (s.frameDurations.length : Int) := by
  simp only [update]
  split
  · exact ⟨h0, h1⟩
  · split
    · rw [checkHeldFrame_frameIndex]
      split
      · simp only [selectPreviousFrame, numOfFrames]
        split <;> constructor <;> omega
      · simp only [selectNextFrame, numOfFrames]
        split <;> constructor <;> omega
    · exact ⟨h0, h1⟩

/-- The public operations of `Animation` that claim C9 quantifies over. -/
inductive AnimOp where
  | updateOp
  | pauseOp
  | unpauseOp
  | holdFrameOp (i : Int)
  | enableBackwardsOp (b : Bool)
  | toggleBackwardsOp
  deriving DecidableEq, Repr

/-- Dispatch an `AnimOp` to the corresponding `Animation` method. -/
def applyAnimOp : AnimOp → AnimState → AnimState
  | .updateOp, s => update s
  | .pauseOp, s => pause s
  | .unpauseOp, s => unpause s
  | .holdFrameOp i, s => holdFrame s i
  | .enableBackwardsOp b, s => enableBackwardsPlayback s b
  | .toggleBackwardsOp, s => toggleBackwardsPlayback s

/-- C9: for an animation with `N ≥ 1` frames whose index is in `[0, N)`,
every public operation — `update` (in either play direction), `pause`,
`unpause`, `hold_frame`, `enable_backwards_playback`,
`toggle_backwards_playback` — leaves the frame index in `[0, N)`, wrapping
modularly at the ends. -/
theorem c9_theorem (op : AnimOp) (s : AnimState)
    (hN : 1 ≤ s.frameDurations.length) (h0 : 0 ≤ s.frameIndex)
    (h1 : s.frameIndex < (s.frameDurations.length : Int)) :
    0 ≤ (applyAnimOp op s).frameIndex ∧
      (applyAnimOp op s).frameIndex <
        ((applyAnimOp op s).frameDurations.length : Int) := by
  cases op with
  | updateOp =>
      have := update_frameIndex_range s hN h0 h1
      have hd := update_frameDurations s
      simp only [applyAnimOp, hd]
      exact this
  | pauseOp => exact ⟨h0, h1⟩
  | unpauseOp => exact ⟨h0, h1⟩
  | holdFrameOp i => exact ⟨h0, h1⟩
  | enableBackwardsOp b => exact ⟨h0, h1⟩
  | toggleBackwardsOp => exact ⟨h0, h1⟩

/-- C9 witness: the invariant theorem applied at `update` on a concrete
freshly-constructed animation. -/
theorem c9_witness :
    1 ≤ (mkAnimState [2, 2, 2]).frameDurations.length ∧
    0 ≤ (mkAnimState [2, 2, 2]).frameIndex ∧
    (mkAnimState [2, 2, 2]).frameIndex <
      ((mkAnimState [2, 2, 2]).frameDurations.length : Int) ∧
    (0 ≤ (applyAnimOp .updateOp (mkAnimState [2, 2, 2])).frameIndex ∧
      (applyAnimOp .updateOp (mkAnimState [2, 2, 2])).frameIndex <
        ((applyAnimOp .updateOp (mkAnimState [2, 2, 2])).frameDurations.length : Int)) :=
  ⟨by decide, by decide, by decide,
    c9_theorem .updateOp (mkAnimState [2, 2, 2]) (by decide) (by decide) (by decide)⟩

/-! ## Claim C10: each frame is shown for at least one tick; short frames
advance after exactly one tick -/

/-- `_check_held_frame` keeps a zero tick counter at zero (both `pause` and
the no-op branch leave it 0). -/
theorem checkHeldFrame_frameCounter_zero (s : AnimState)
    (h : s.frameCounter = 0) : (checkHeldFrame s).frameCounter = 0 := by
  unfold checkHeldFrame
  split
  · exact h
  · split
    · rfl
    · exact h

/-- C10: a single `update` changes the frame index by at most one step (it is
either unchanged, or the result of `_select_next_frame`, or of
`_select_previous_frame` — no frame is ever skipped within one tick); and
because `update` increments the counter before comparing it with the current
frame's duration, an unpaused frame entered with counter 0 whose duration is
at most 1 (including 0 or negative) advances after exactly this one tick,
with the counter reset — no stall and no multi-frame skip. -/
theorem c10_theorem (s : AnimState) :
    ((update s).frameIndex = s.frameIndex ∨
      (update s).frameIndex = (selectNextFrame s).frameIndex ∨
      (update s).frameIndex = (selectPreviousFrame s).frameIndex) ∧
    (s.isPaused = false → s.frameCounter = 0 →
      pyGet s.frameDurations s.frameIndex ≤ 1 →
      (update s).frameIndex =
        (if s.isPlayingBackwards then selectPreviousFrame s
         else selectNextFrame s).frameIndex ∧
      (update s).frameCounter = 0) := by
  constructor
  · simp only [update]
    split
    · exact Or.inl rfl
    · split
      · rw [checkHeldFrame_frameIndex]
        split
        · exact Or.inr (Or.inr rfl)
        · exact Or.inr (Or.inl rfl)
      · exact Or.inl rfl
  · intro hp hc hd
    have hcomp : frameHasCompletedDuration
        { frameIndex := s.frameIndex, frameCounter := s.frameCounter + 1,
          frameDurations := s.frameDurations,
          isPlayingBackwards := s.isPlayingBackwards, isPaused := false,
          heldFrame := s.heldFrame } = true := by
      simp only [frameHasCompletedDuration, ge_iff_le, decide_eq_true_eq]
      omega
    simp only [update, hp, Bool.false_eq_true, if_false, hcomp, if_true]
    constructor
    · rw [checkHeldFrame_frameIndex]
      split <;> rfl
    · apply checkHeldFrame_frameCounter_zero
      split <;> rfl

/-- C10 witness: with durations `[1, 2]`, the very first tick advances frame
0 (duration 1) to frame 1 with the counter reset. -/
theorem c10_witness :
    (update (mkAnimState [1, 2])).frameIndex =
      (selectNextFrame (mkAnimState [1, 2])).frameIndex ∧
    (update (mkAnimState [1, 2])).frameCounter = 0 := by
  have h := (c10_theorem (mkAnimState [1, 2])).2 rfl rfl (by decide)
  simpa using h

/-! ## Claim C8: full-cycle closure under uninterrupted forward playback -/

/-- The state of an animation in uninterrupted forward playback: frame index
`i`, tick counter `c`, and the constructor defaults otherwise (forward,
unpaused, no held frame). -/
def forwardState (ds : List Int) (i c : Int) : AnimState :=
  { frameIndex := i, frameCounter := c, frameDurations := ds,
    isPlayingBackwards := false, isPaused := false, heldFrame := none }

/-- A forward tick that does not complete the current frame's duration only
increments the counter. -/
theorem update_forward_stay (ds : List Int) (i c : Int)
    (h : c + 1 < pyGet ds i) :
    update (forwardState ds i c) = forwardState ds i (c + 1) := by
  have hd : frameHasCompletedDuration ⟨i, c + 1, ds, false, false, none⟩ = false := by
    simp only [frameHasCompletedDuration, ge_iff_le, decide_eq_false_iff_not, not_le]
    exact h
  simp [update, forwardState, hd]

/-- A forward tick that completes the current frame's duration resets the
counter and steps the index through `_select_next_frame`. -/
theorem update_forward_advance (ds : List Int) (i c : Int)
    (h : pyGet ds i ≤ c + 1) :
    update (forwardState ds i c) =
      forwardState ds (if (ds.length : Int) ≤ i + 1 then 0 else i + 1) 0 := by
  have hd : frameHasCompletedDuration ⟨i, c + 1, ds, false, false, none⟩ = true := by
    simp only [frameHasCompletedDuration, ge_iff_le, decide_eq_true_eq]
    exact h
  simp [update, forwardState, hd, selectNextFrame, checkHeldFrame, numOfFrames]

/-- Running a frame of duration `d ≥ 1` from a fresh counter takes exactly
`d` ticks and then advances the index one step forward. -/
theorem run_one_frame (ds : List Int) (i : Int) (hd1 : 1 ≤ pyGet ds i) :
    update^[(pyGet ds i).toNat] (forwardState ds i 0) =
      forwardState ds (if (ds.length : Int) ≤ i + 1 then 0 else i + 1) 0 := by
  have key : ∀ k : Nat, (k : Int) < pyGet ds i →
      update^[k] (forwardState ds i 0) = forwardState ds i k := by
    intro k
    induction k with
    | zero => intro _; rfl
    | succ n ih =>
        intro hk
        have hn : (n : Int) < pyGet ds i := by omega
        rw [Function.iterate_succ_apply', ih hn,
          update_forward_stay ds i n (by omega)]
        congr 1
  have hsplit : (pyGet ds i).toNat = ((pyGet ds i).toNat - 1) + 1 := by omega
  rw [hsplit, Function.iterate_succ_apply',
    key ((pyGet ds i).toNat - 1) (by omega)]
  exact update_forward_advance ds i _ (by omega)

/-- The entry at an in-range nonnegative index is a member of the list. -/
theorem pyGet_mem (ds : List Int) (j : Nat) (hj : j < ds.length) :
    pyGet ds (j : Int) ∈ ds := by
  simp only [pyGet, Int.toNat_ofNat]
  rw [List.getD_eq_getElem ds 0 hj]
  exact List.getElem_mem hj

/-- Dropping `j < N` elements splits off the entry at `j`. -/
theorem sum_drop_split (ds : List Int) (j : Nat) (hj : j < ds.length) :
    (ds.drop j).sum = pyGet ds (j : Int) + (ds.drop (j + 1)).sum := by
  rw [List.drop_eq_getElem_cons hj, List.sum_cons]
  congr 1
  simp only [pyGet, Int.toNat_ofNat]
  rw [List.getD_eq_getElem ds 0 hj, if_neg (by omega)]

/-- From frame `N - r` (with `1 ≤ r ≤ N`), consuming the total remaining
duration returns the animation to frame 0 with the counter reset. -/
theorem run_to_zero (ds : List Int) (hpos : ∀ d ∈ ds, 1 ≤ d) :
    ∀ r : Nat, 1 ≤ r → r ≤ ds.length →
      update^[((ds.drop (ds.length - r)).sum).toNat]
        (forwardState ds ((ds.length - r : Nat) : Int) 0) =
      forwardState ds 0 0 := by
  intro r
  induction r with
  | zero => omega
  | succ n ih =>
      intro _ hrN
      have hi : ds.length - (n + 1) < ds.length := by omega
      have hmem := pyGet_mem ds (ds.length - (n + 1)) hi
      have hd1 : 1 ≤ pyGet ds ((ds.length - (n + 1) : Nat) : Int) :=
        hpos _ hmem
      have hb : 0 ≤ (ds.drop (ds.length - (n + 1) + 1)).sum :=
        List.sum_nonneg fun x hx =>
          le_trans zero_le_one (hpos x (List.drop_subset _ _ hx))
      rw [sum_drop_split ds _ hi, Int.toNat_add (by omega) hb, Nat.add_comm,
        Function.iterate_add_apply,
        run_one_frame ds _ hd1]
      by_cases hn : n = 0
      · subst hn
        rw [if_pos (by omega)]
        have hdrop : ds.length - 1 + 1 = ds.length := by omega
        rw [hdrop, List.drop_length]
        rfl
      · rw [if_neg (by omega)]
        have hidx : ((ds.length - (n + 1) : Nat) : Int) + 1 =
            ((ds.length - n : Nat) : Int) := by omega
        have hdrop : ds.length - (n + 1) + 1 = ds.length - n := by omega
        rw [hidx, hdrop]
        exact ih (by omega) (by omega)

/-- C8 counterexample: the claim as stated quantifies over every duration
sequence, but with durations `[0, 1]` (sum 1) a single tick moves the index
to 1, not back to 0: a frame with duration 0 still consumes one tick because
the counter is incremented before the comparison. -/
theorem c8_counterexample :
    ¬ (Animation.update^[(([0, 1] : List Int).sum).toNat]
        (mkAnimState [0, 1]) = mkAnimState [0, 1]) := by
  decide

/-- C8 (amended): for any duration sequence of length `N ≥ 1` in which every
duration is at least 1 tick, starting from frame 0 with counter 0, after
exactly `sum(durations)` updates of uninterrupted forward playback the
animation is back in its initial state (frame index 0, counter 0). -/
theorem c8_theorem (ds : List Int) (hN : 1 ≤ ds.length)
    (hpos : ∀ d ∈ ds, 1 ≤ d) :
    Animation.update^[ds.sum.toNat] (mkAnimState ds) = mkAnimState ds := by
  have h := run_to_zero ds hpos ds.length hN le_rfl
  simp only [Nat.sub_self, List.drop_zero, Nat.cast_zero] at h
  exact h

/-- C8 witness: the closure theorem applied to the concrete durations
`[2, 2, 2]`. -/
theorem c8_witness :
    1 ≤ ([2, 2, 2] : List Int).length ∧
    Animation.update^[(([2, 2, 2] : List Int).sum).toNat]
      (mkAnimState [2, 2, 2]) = mkAnimState [2, 2, 2] :=
  ⟨by decide, c8_theorem [2, 2, 2] (by decide) (by decide)⟩

/-! ## Entity / Component binding and dispatch (`game_objects.py`) -/

/-- A bound component as the entity observes it: an identity, the capability
role it registers under (`type(self).__name__.lower()`; `Animation` overrides
`_add_self_as_attribute` to use its superclass name, so it registers as
`graphic`), the declared parameter names of its `update` method (including
`self`), and whether it overrides `receive_message` (the base class raises
`NotImplementedError`). -/
structure Component where
  id : Nat
  role : String
  updateParams : List String
  implementsReceive : Bool
  deriving DecidableEq, Repr

/-- The bindings held by an `Entity`: the ordered `components` list plus the
role-named attributes created by `setattr`, modelled as an association list
in which the most recent binding for a role shadows older ones. -/
structure Entity where
  components : List Component
  attrs : List (String × Nat)
  deriving DecidableEq, Repr

/-- An entity with no components bound yet. -/
def Entity.empty : Entity := ⟨[], []⟩

/-- `Entity.add_component` for a single component: append it to
`self.components`, then `bind_to_entity` ends in `_add_self_as_attribute`,
whose `setattr` replaces any prior attribute of the same role. -/
def addComponent (e : Entity) (c : Component) : Entity :=
  { components := e.components ++ [c]
    attrs := (c.role, c.id) :: e.attrs }

/-- `getattr(entity, role)`: the most recently set attribute for a role. -/
def getattrRole (e : Entity) (role : String) : Option Nat :=
  (e.attrs.find? (fun p => p.fst == role)).map Prod.snd

/-! ## Claim C4: uniqueness of bound components by capability role -/

/-- C4 counterexample: binding a `Graphic` (id 1) and then an `Animation`
(id 2), both under the role `graphic`, leaves TWO bound instances in the
entity's ordered component collection, not exactly one: `add_component`
always appends to `self.components` and only the role attribute is
overwritten. -/
theorem c4_counterexample :
    ¬ ((addComponent (addComponent Entity.empty
          ⟨1, "graphic", ["self", "time"], false⟩)
          ⟨2, "graphic", ["self"], false⟩).components.length = 1) := by
  decide

/-- C4 (amended): binding a second component of an already-bound role makes
it the one accessible under that role attribute (last-bound-wins for role
lookup), but the prior component remains in the ordered `components`
collection — the collection is not unique by role, and both components keep
receiving updates and messages. -/
theorem c4_theorem (e : Entity) (c1 c2 : Component) (h : c1.role = c2.role) :
    getattrRole (addComponent (addComponent e c1) c2) c2.role = some c2.id ∧
    (addComponent (addComponent e c1) c2).components =
      e.components ++ [c1, c2] := by
  constructor
  · simp [addComponent, getattrRole]
  · simp [addComponent]

/-- C4 witness: the amended theorem at two concrete same-role components. -/
theorem c4_witness :
    (⟨1, "graphic", ["self", "time"], false⟩ : Component).role =
      (⟨2, "graphic", ["self"], false⟩ : Component).role ∧
    (getattrRole (addComponent (addComponent Entity.empty
        ⟨1, "graphic", ["self", "time"], false⟩)
        ⟨2, "graphic", ["self"], false⟩) "graphic" = some 2 ∧
      (addComponent (addComponent Entity.empty
        ⟨1, "graphic", ["self", "time"], false⟩)
        ⟨2, "graphic", ["self"], false⟩).components =
        Entity.empty.components ++
          [⟨1, "graphic", ["self", "time"], false⟩,
           ⟨2, "graphic", ["self"], false⟩]) :=
  ⟨rfl, c4_theorem Entity.empty _ _ rfl⟩

/-! ## Claim C2: update dispatch over time-aware and time-independent
components -/

/-- Python 2 `inspect.getargspec` applied to a bound method: it inspects the
underlying function, so the returned argument-name list INCLUDES `self`. -/
def getargspecArgs (c : Component) : List String := c.updateParams

/-- `Entity._component_takes_time_argument`:
`len(getargspec(component.update)[0]) > 0`. -/
def componentTakesTimeArgument (c : Component) : Bool :=
  decide (0 < (getargspecArgs c).length)

/-- Calling the bound method `component.update` with `n` explicit arguments:
Python passes `self` implicitly, and the call raises `TypeError` unless the
total count equals the declared parameter count (no `update` here declares
defaults or varargs).  The elapsed-time value itself is irrelevant to the
calling convention, so only the argument count is modelled. -/
def callBoundUpdate (c : Component) (explicitArgs : Nat) : Except PyErr Unit :=
  if explicitArgs + 1 = c.updateParams.length then .ok ()
  else .error .typeError

/-- The per-component body of `Entity.update`: call `component.update(time)`
when `_component_takes_time_argument` says so, else `component.update()`. -/
def entityUpdateDispatch (c : Component) : Except PyErr Unit :=
  if componentTakesTimeArgument c then callBoundUpdate c 1
  else callBoundUpdate c 0

/-- `Entity.update(time)`: dispatch to every bound component in binding
order; an uncaught `TypeError` aborts the loop and propagates. -/
def entityUpdateAux : List Component → Except PyErr Unit
  | [] => .ok ()
  | c :: rest => do
      entityUpdateDispatch c
      entityUpdateAux rest

/-- `Entity.update(time)` on the entity's component list. -/
def entityUpdate (e : Entity) : Except PyErr Unit :=
  entityUpdateAux e.components

/-- `Animation` as a bound component: its `update(self)` declares no time
parameter, and it registers under the role `graphic`. -/
def animationComponent : Component := ⟨2, "graphic", ["self"], false⟩

/-- C2 evaluated at the failing input: for an entity with a bound
`Animation`, `_component_takes_time_argument` wrongly answers `true`
(`getargspec` on the bound method counts `self`, so the length test
`> 0` is true for every method), so `Entity.update(time)` calls
`animation.update(time)` and raises `TypeError` instead of invoking the
time-independent `update()` successfully. -/
theorem c2_theorem :
    componentTakesTimeArgument animationComponent = true ∧
    entityUpdate (addComponent Entity.empty animationComponent) =
      .error .typeError :=
  ⟨rfl, rfl⟩

/-! ## Claim C7: synchronous message broadcast -/

/-- `Component.receive_message` as observed by `send_message`: the base class
raises `NotImplementedError`; an overriding component receives the call and
observes the message type and the details tuple exactly as passed.  The
observable of one delivery is recorded as `(component id, message type,
details)`. -/
def receiveMessage (c : Component) (messageType : Nat) (details : List Int) :
    Except PyErr (Nat × Nat × List Int) :=
  if c.implementsReceive then .ok (c.id, messageType, details)
  else .error .notImplementedError

/-- The loop of `Entity.send_message`: deliver to each component in binding
order with the same message type and details; the Python method returns
`None`, so the model's value is the ordered trace of delivered calls. -/
def sendMessageAux : List Component → Nat → List Int →
    Except PyErr (List (Nat × Nat × List Int))
  | [], _, _ => .ok []
  | c :: rest, t, d => do
      let call ← receiveMessage c t d
      let calls ← sendMessageAux rest t d
      pure (call :: calls)

/-- `Entity.send_message(message_type, *details)`. -/
def sendMessage (e : Entity) (messageType : Nat) (details : List Int) :
    Except PyErr (List (Nat × Nat × List Int)) :=
  sendMessageAux e.components messageType details

/-- The broadcast loop over any component list delivers one call per
implementing component, in order, with the shared payload. -/
theorem sendMessageAux_ok (l : List Component) (t : Nat) (d : List Int)
    (h : ∀ c ∈ l, c.implementsReceive = true) :
    sendMessageAux l t d = .ok (l.map fun c => (c.id, t, d)) := by
  induction l with
  | nil => rfl
  | cons c rest ih =>
      have hc : c.implementsReceive = true := h c (List.mem_cons_self c rest)
      have hrest : ∀ x ∈ rest, x.implementsReceive = true :=
        fun x hx => h x (List.mem_cons_of_mem c hx)
      simp only [sendMessageAux, receiveMessage, hc, if_true, ih hrest,
        List.map_cons]
      rfl

/-- C7: for an entity whose `k` bound components all implement
`receive_message`, `send_message(T, details)` makes exactly one call per
bound component, in binding order, each observing the same message type `T`
and the identical unmutated details tuple — the trace is exactly
`components.map (fun c => (c.id, T, details))`, which has length `k`. -/
theorem c7_theorem (e : Entity) (t : Nat) (d : List Int)
    (h : ∀ c ∈ e.components, c.implementsReceive = true) :
    sendMessage e t d = .ok (e.components.map fun c => (c.id, t, d)) :=
  sendMessageAux_ok e.components t d h

/-- C7 witness: broadcast to two implementing components yields their two
calls in binding order with the shared payload. -/
theorem c7_witness :
    (∀ c ∈ (Entity.mk [⟨1, "graphic", ["self", "time"], true⟩,
        ⟨2, "physics", ["self", "time"], true⟩] []).components,
      c.implementsReceive = true) ∧
    sendMessage (Entity.mk [⟨1, "graphic", ["self", "time"], true⟩,
        ⟨2, "physics", ["self", "time"], true⟩] []) 7 [10, 20, 30] =
      .ok [(1, 7, [10, 20, 30]), (2, 7, [10, 20, 30])] :=
  ⟨by decide, c7_theorem _ 7 [10, 20, 30] (by decide)⟩

/-! ## Claim C5: construction-time validation of the duration sequence -/

/-- C5 counterexample: a duration sequence whose length does not match the
strip's geometry is accepted silently — a 30-pixel-wide sheet with 4
durations (30 is not 4 times any whole frame width) constructs successfully
with the frame width floor-divided to 7, instead of raising a fatal error. -/
theorem c5_counterexample :
    animationInit 30 [1, 1, 1, 1] = .ok (7, mkAnimState [1, 1, 1, 1]) :=
  rfl

/-- C5 (amended): constructing an `Animation` with an empty frame-duration
sequence raises a fatal error at construction time (the frame-width
computation divides by `num_of_frames()`, raising `ZeroDivisionError`
immediately); but a duration sequence whose length mismatches the strip's
geometry is NOT validated — any non-empty sequence is accepted, with the
frame width silently floor-divided. -/
theorem c5_theorem :
    (∀ w : Int, animationInit w [] = .error .zeroDivisionError) ∧
    (∀ w : Int, ∀ ds : List Int, ds ≠ [] →
      ∃ fw : Int, animationInit w ds = .ok (fw, mkAnimState ds)) := by
  constructor
  · intro w
    rfl
  · intro w ds hne
    refine ⟨Int.fdiv w (ds.length : Int), ?_⟩
    simp only [animationInit, pyIntDiv]
    rw [if_neg (by simp [mkAnimState, hne])]
    rfl

/-- C5 witness: the empty sequence raises, a concrete non-empty sequence is
accepted. -/
theorem c5_witness :
    animationInit 30 ([] : List Int) = .error .zeroDivisionError ∧
    (([1, 1, 1] : List Int) ≠ [] ∧
      ∃ fw : Int, animationInit 30 [1, 1, 1] = .ok (fw, mkAnimState [1, 1, 1])) :=
  ⟨(c5_theorem.1 30), by decide, c5_theorem.2 30 [1, 1, 1] (by decide)⟩

/-! ## Surfaces and the strip-reorder transform (`materials/graphics.py`) -/

/-- A pygame surface at the granularity the spec fixes as the backend
boundary: dimensions, the per-surface alpha (`get_alpha` may return `None`),
and an abstract pixel map.  Pixels outside `[0, width) × [0, height)` are
never read by the in-bounds operations below. -/
structure Surface where
  width : Int
  height : Int
  alpha : Option Int
  pixels : Int → Int → Int

/-- `dest.blit(source, (x, y), area)` for a fully opaque source (the
reorder transform forces `set_alpha(255)` on its source before blitting):
the rectangular region `area = (ax, ay, aw, ah)` of the source is copied to
the destination at `(x, y)`; every other destination pixel is unchanged. -/
def blit (dest src : Surface) (x y ax ay aw ah : Int) : Surface :=
  { dest with pixels := fun p q =>
      if x ≤ p ∧ p < x + aw ∧ y ≤ q ∧ q < y + ah then
        src.pixels (ax + (p - x)) (ay + (q - y))
      else dest.pixels p q }

/-- The color value of `Color('magenta')`, RGB (255, 0, 255). -/
def MAGENTA : Int := 16711935

/-- `create_blank_surface(width, height)`: a magenta-filled, magenta-keyed
surface with alpha 255. -/
def createBlankSurface (width height : Int) : Surface :=
  { width := width, height := height, alpha := some 255,
    pixels := fun _ _ => MAGENTA }

/-- `order_flipped_sprite_sheet(flipped_sheet, frame_width)`.  The Python
function mutates its argument in place with `set_alpha`, so the model
returns the pair (ordered sheet, source sheet as the call leaves it).
`num_of_frames` uses Python 2 floor division of the sheet width by the frame
width. -/
def orderFlippedSpriteSheet (flippedSheet : Surface) (frameWidth : Int) :
    Surface × Surface :=
  let originalAlpha := flippedSheet.alpha
  let flippedSheet := { flippedSheet with alpha := some 255 }
  let orderedSheet := createBlankSurface flippedSheet.width flippedSheet.height
  let numOfFramesInSheet := Int.fdiv orderedSheet.width frameWidth
  let orderedSheet :=
    (List.range numOfFramesInSheet.toNat).foldl
      (fun (acc : Surface) (frameIndex : Nat) =>
        let x := (frameIndex : Int) * frameWidth
        blit acc flippedSheet x 0
          (flippedSheet.width - frameWidth - x) 0
          frameWidth flippedSheet.height)
      orderedSheet
  ({ orderedSheet with alpha := originalAlpha }, flippedSheet)

/-! ## Claim C3: the reorder transform restores frame order -/

/-- A pixel inside the copied region of a `blit` takes the source value. -/
theorem blit_pixels_of_mem (dest src : Surface) (x y ax ay aw ah p q : Int)
    (h : x ≤ p ∧ p < x + aw ∧ y ≤ q ∧ q < y + ah) :
    (blit dest src x y ax ay aw ah).pixels p q =
      src.pixels (ax + (p - x)) (ay + (q - y)) := by
  simp [blit, h]

/-- A pixel outside the copied region of a `blit` is unchanged. -/
theorem blit_pixels_of_not_mem (dest src : Surface) (x y ax ay aw ah p q : Int)
    (h : ¬(x ≤ p ∧ p < x + aw ∧ y ≤ q ∧ q < y + ah)) :
    (blit dest src x y ax ay aw ah).pixels p q = dest.pixels p q := by
  simp only [blit, if_neg h]

/-- After `k` iterations of the reorder loop, any pixel in the columns of a
destination frame `i < k` holds the source pixel from horizontal offset
`width - frame_width - i * frame_width` (iteration `i` writes it; later
iterations write strictly further right). -/
theorem reorder_fold_pixels (src : Surface) (fw : Int) (k i : Nat) (u v : Int)
    (hik : i < k) (hfw : 1 ≤ fw) (hu : 0 ≤ u) (hufw : u < fw)
    (hv : 0 ≤ v) (hvh : v < src.height) (b : Surface) :
    (((List.range k).foldl
        (fun (acc : Surface) (frameIndex : Nat) =>
          blit acc src ((frameIndex : Int) * fw) 0
            (src.width - fw - (frameIndex : Int) * fw) 0
            fw src.height) b).pixels ((i : Int) * fw + u) v) =
      src.pixels ((src.width - fw - (i : Int) * fw) + u) v := by
  induction k with
  | zero => omega
  | succ n ih =>
      rw [List.range_succ, List.foldl_append, List.foldl_cons, List.foldl_nil]
      by_cases hin : i = n
      · subst hin
        rw [blit_pixels_of_mem _ _ _ _ _ _ _ _ _ _
          ⟨by omega, by omega, hv, by omega⟩]
        congr 1 <;> ring
      · have hi' : i < n := by omega
        rw [blit_pixels_of_not_mem, ih hi']
        intro hcon
        have hstep : ((i : Int) + 1) * fw ≤ (n : Int) * fw := by
          have hin' : (i : Int) + 1 ≤ (n : Int) := by exact_mod_cast hi'
          exact mul_le_mul_of_nonneg_right hin' (by omega)
        have hlt : (i : Int) * fw + u < ((i : Int) + 1) * fw := by
          nlinarith
        exact absurd hcon.1 (by nlinarith [hcon.1])

/-- C3: for a mirrored strip of width `N * frame_width` (`N ≥ 1`,
`frame_width ≥ 1`), the reordered strip's destination frame `i` (for every
`0 ≤ i < N`, every column `0 ≤ u < frame_width` of the frame and every row
`0 ≤ v < height`) holds the source pixel at horizontal offset
`(N - 1 - i) * frame_width`, i.e. `output[i] = input[N-1-i]` with the full
strip height preserved. -/
theorem c3_theorem (src : Surface) (fw : Int) (N i : Nat) (u v : Int)
    (hfw : 1 ≤ fw) (hN : 1 ≤ N) (hW : src.width = (N : Int) * fw)
    (hi : i < N) (hu : 0 ≤ u) (hufw : u < fw)
    (hv : 0 ≤ v) (hvh : v < src.height) :
    (orderFlippedSpriteSheet src fw).1.pixels ((i : Int) * fw + u) v =
      src.pixels (((N : Int) - 1 - (i : Int)) * fw + u) v := by
  simp only [orderFlippedSpriteSheet, createBlankSurface]
  have hnum : (Int.fdiv src.width fw).toNat = N := by
    rw [hW, Int.mul_fdiv_cancel _ (by omega), Int.toNat_natCast]
  rw [hnum]
  have harg : (src.width - fw - (i : Int) * fw) + u =
      ((N : Int) - 1 - (i : Int)) * fw + u := by
    rw [hW]; ring
  exact (reorder_fold_pixels ⟨src.width, src.height, some 255, src.pixels⟩
    fw N i u v hi hfw hu hufw hv hvh _).trans (by rw [harg])

/-- C3 witness: a 2-frame strip of width 4 with `pixels x _ = x`; the
reordered sheet's frame 0 starts with the source pixel from offset 2. -/
theorem c3_witness :
    (1 : Int) ≤ 2 ∧ 1 ≤ 2 ∧
    (⟨4, 1, some 255, fun x _ => x⟩ : Surface).width = ((2 : Nat) : Int) * 2 ∧
    (orderFlippedSpriteSheet ⟨4, 1, some 255, fun x _ => x⟩ 2).1.pixels
        (((0 : Nat) : Int) * 2 + 0) 0 =
      (⟨4, 1, some 255, fun x _ => x⟩ : Surface).pixels
        ((((2 : Nat) : Int) - 1 - ((0 : Nat) : Int)) * 2 + 0) 0 :=
  ⟨by norm_num, by norm_num, by norm_num,
    c3_theorem ⟨4, 1, some 255, fun x _ => x⟩ 2 2 0 0 0
      (by norm_num) (by norm_num) (by norm_num) (by norm_num)
      (by norm_num) (by norm_num) (by norm_num) (by norm_num)⟩

/-! ## Claim C6: purity of the reorder transform -/

/-- C6 counterexample: with an input strip whose per-surface alpha is 100,
the call leaves the input's alpha at 255 — `set_alpha(255)` on the source is
never undone (the original opacity is restored on the RESULT, not on the
input), so the input strip is NOT left unchanged. -/
theorem c6_counterexample :
    ¬ ((orderFlippedSpriteSheet ⟨4, 1, some 100, fun _ _ => 0⟩ 2).2.alpha =
        (⟨4, 1, some 100, fun _ _ => 0⟩ : Surface).alpha) := by
  decide

/-- C6 (amended): the transform is deterministic and touches nothing beyond
its two surfaces; the input strip's pixel data and dimensions are unchanged,
and the returned strip carries the input's original opacity — but the
input's per-surface alpha is left forced to 255 rather than restored. -/
theorem c6_theorem (s : Surface) (fw : Int) :
    (orderFlippedSpriteSheet s fw).2.pixels = s.pixels ∧
    (orderFlippedSpriteSheet s fw).2.width = s.width ∧
    (orderFlippedSpriteSheet s fw).2.height = s.height ∧
    (orderFlippedSpriteSheet s fw).2.alpha = some 255 ∧
    (orderFlippedSpriteSheet s fw).1.alpha = s.alpha :=
  ⟨rfl, rfl, rfl, rfl, rfl⟩

end GameHappy
